import Mathlib

/-!
Verification of the interactive movie renamer workflow of
movie_renamer.py: the search constructor (construct_search), the
filename cleaner (_clean), the disambiguation loop's handling of one
operator input (rename_movie), the lookup-error recovery step, and the
rename/fetch executor (perform_rename) modelled as an event trace.

Strings are modelled as lists of characters (Str).
-/

/-- Strings are modelled as lists of characters. -/
abbrev Str := List Char

/-- Embed a Lean string literal into the character-list model. -/
def str (s : String) : Str := s.data

/-- Python `s.rpartition(c)` restricted to the two pieces the renamer
uses: `(part before the last c, part after the last c)`.  When `c` does
not occur, Python puts the whole string in the last slot and leaves the
first empty, i.e. here `([], s)`. -/
def rpartition (c : Char) : Str → Str × Str
  | [] => ([], [])
  | x :: xs =>
    if c ∈ xs then
      (x :: (rpartition c xs).1, (rpartition c xs).2)
    else if x = c then ([], xs)
    else ([], x :: xs)

/-- Python single-character `s.replace(c, d)`. -/
def replaceChar (c d : Char) (l : Str) : Str :=
  l.map fun x => if x = c then d else x

/-- `construct_search` of movie_renamer.py: drop the extension (the text
after the last dot) and turn every remaining dot into a space. -/
def construct_search (filename : Str) : Str :=
  replaceChar '.' ' ' (rpartition '.' filename).1

/-- The module constant `forbidden_characters` of movie_renamer.py
(characters forbidden on Windows); codepoint 92 is the backslash and 34
the double quote. -/
def forbidden_characters : Str :=
  ['<', '>', '/', Char.ofNat 92, ':', Char.ofNat 34, '|', '?', '*']

/-- The loop `for x in forbidden_characters: filename = filename.replace(x, ' ')`
inside `_clean`. -/
def replaceForbidden (l : Str) : Str :=
  forbidden_characters.foldl (fun acc x => replaceChar x ' ' acc) l

/-- Python substring test for a space pair: some two adjacent
characters of the list are both spaces. -/
def hasDoubleSpace : Str → Bool
  | x :: y :: rest => (x == ' ' && y == ' ') || hasDoubleSpace (y :: rest)
  | _ => false

/-- One full pass of the Python replace call that rewrites each space
pair to a single space: non-overlapping, left to right. -/
def replacePairOnce : Str → Str
  | x :: y :: rest =>
    if x == ' ' && y == ' ' then ' ' :: replacePairOnce rest
    else x :: replacePairOnce (y :: rest)
  | l => l

theorem replacePairOnce_length_le : ∀ l : Str, (replacePairOnce l).length ≤ l.length
  | [] => by simp [replacePairOnce]
  | [c] => by simp [replacePairOnce]
  | x :: y :: rest => by
    simp only [replacePairOnce]
    split
    · have := replacePairOnce_length_le rest
      simp only [List.length_cons]
      omega
    · have := replacePairOnce_length_le (y :: rest)
      simp only [List.length_cons] at this ⊢
      omega

theorem replacePairOnce_length_lt :
    ∀ l : Str, hasDoubleSpace l = true → (replacePairOnce l).length < l.length
  | [] => by intro h; simp [hasDoubleSpace] at h
  | [c] => by intro h; simp [hasDoubleSpace] at h
  | x :: y :: rest => by
    intro h
    simp only [replacePairOnce]
    split
    · have := replacePairOnce_length_le rest
      simp only [List.length_cons]
      omega
    · next hc =>
      have htail : hasDoubleSpace (y :: rest) = true := by
        simp only [hasDoubleSpace, Bool.or_eq_true] at h
        exact h.resolve_left (by simp_all)
      have := replacePairOnce_length_lt (y :: rest) htail
      simp only [List.length_cons] at this ⊢
      omega

/-- Fuel-indexed form of the while-loop inside `_clean` that keeps
replacing space pairs by single spaces while the string has two
adjacent spaces. -/
def collapseFuel : Nat → Str → Str
  | 0, l => l
  | n + 1, l =>
    if hasDoubleSpace l = true then collapseFuel n (replacePairOnce l) else l

/-- The while-loop inside `_clean`: since every replacement pass
strictly shortens the string, `l.length` passes always suffice, so the
fuel never runs out (see `collapseSpaces_step`). -/
def collapseSpaces (l : Str) : Str :=
  collapseFuel l.length l

theorem collapseFuel_congr :
    ∀ (n m : Nat) (l : Str), l.length ≤ n → l.length ≤ m →
      collapseFuel n l = collapseFuel m l
  | 0, 0, l, _, _ => rfl
  | 0, m + 1, l, hn, _ => by
    have : l = [] := List.length_eq_zero.mp (Nat.le_zero.mp hn)
    subst this
    simp [collapseFuel, hasDoubleSpace]
  | n + 1, 0, l, _, hm => by
    have : l = [] := List.length_eq_zero.mp (Nat.le_zero.mp hm)
    subst this
    simp [collapseFuel, hasDoubleSpace]
  | n + 1, m + 1, l, hn, hm => by
    simp only [collapseFuel]
    split
    · next hd =>
      have hlt := replacePairOnce_length_lt l hd
      exact collapseFuel_congr n m (replacePairOnce l)
        (by omega) (by omega)
    · rfl

/-- The defining recurrence of the while-loop. -/
theorem collapseSpaces_step (l : Str) :
    collapseSpaces l =
      if hasDoubleSpace l = true then collapseSpaces (replacePairOnce l) else l := by
  unfold collapseSpaces
  cases hl : l.length with
  | zero =>
    have : l = [] := List.length_eq_zero.mp hl
    subst this
    simp [collapseFuel, hasDoubleSpace]
  | succ n =>
    simp only [collapseFuel]
    split
    · next hd =>
      have hlt := replacePairOnce_length_lt l hd
      exact collapseFuel_congr n (replacePairOnce l).length (replacePairOnce l)
        (by omega) (by omega)
    · rfl

/-- `_clean` of movie_renamer.py: replace each forbidden character by a
space, then collapse runs of spaces. -/
def _clean (filename : Str) : Str :=
  collapseSpaces (replaceForbidden filename)

/-! ## Disambiguation loop: handling one operator input

Lines 79 to 89 of movie_renamer.py.  The operator input `choice` is
tested against the literal character n (next page); otherwise Python
tries `num = int(choice)`, skips on 0, indexes the Search list at
position `num - 1`
(Python indexing, so negative positions count from the end), and treats
a ValueError or IndexError as a brand-new search string with the
default page 1 (`rename_movie(filename, search_string=choice)`). -/

/-- Digits-only test for the body of a Python 2 integer literal. -/
def isDigits (l : Str) : Bool :=
  !l.isEmpty && l.all Char.isDigit

/-- Decimal value of a digit list. -/
def digitsToNat (l : Str) : Nat :=
  l.foldl (fun n c => 10 * n + (c.toNat - 48)) 0

/-- Python 2 `int(s)` on an operator input line: optional surrounding
whitespace, optional sign, then one or more decimal digits; `none`
models a ValueError. -/
def pyParseInt (s : Str) : Option Int :=
  match (((s.dropWhile Char.isWhitespace).reverse.dropWhile Char.isWhitespace).reverse :
      Str) with
  | '-' :: ds => if isDigits ds then some (-(digitsToNat ds : Int)) else none
  | '+' :: ds => if isDigits ds then some (digitsToNat ds : Int) else none
  | ds => if isDigits ds then some (digitsToNat ds : Int) else none

/-- Python list indexing `l[i]`: non-negative positions from the front,
negative positions from the end; `none` models an IndexError. -/
def pyIndex {α : Type} (l : List α) (i : Int) : Option α :=
  if 0 ≤ i then l[i.toNat]?
  else if 0 ≤ (l.length : Int) + i then l[((l.length : Int) + i).toNat]?
  else none

/-- Outcome of one operator input in the PRESENTING state of
`rename_movie`. -/
inductive StepResult (α : Type) where
  | skip
  | nextPage (search : Str) (page : Int)
  | newSearch (search : Str) (page : Int)
  | confirm (c : α)
deriving DecidableEq

/-- Lines 79 to 89 of `rename_movie`: dispatch one operator input
`choice` given the current search string, page, and candidate list
(the Search field of the response).  `newSearch s 1` models the recursive call
`rename_movie(filename, search_string=choice)` whose page defaults
to 1. -/
def handleChoice {α : Type} (search_string : Str) (page : Int)
    (candidates : List α) (choice : Str) : StepResult α :=
  if choice = ['n'] then .nextPage search_string (page + 1)
  else
    match pyParseInt choice with
    | none => .newSearch choice 1
    | some num =>
      if num = 0 then .skip
      else
        match pyIndex candidates (num - 1) with
        | none => .newSearch choice 1
        | some entry => .confirm entry

/-- Outcome of one round of the lookup-error recovery loop
(lines 70 to 76 of `rename_movie`). -/
inductive ErrorStep where
  | skip
  | requery (search : Str) (page : Int)
deriving DecidableEq

/-- Lines 70 to 76 of `rename_movie`: after the lookup service reports
an error, an empty operator reply returns (the file is skipped); any
other reply is re-queried as the new search string together with the
current `page` argument of `rename_movie`. -/
def error_loop_step (page : Int) (reply : Str) : ErrorStep :=
  if reply = [] then .skip else .requery reply page

/-! ## Rename/Fetch Executor

`perform_rename` (lines 92 to 117 of movie_renamer.py) modelled as the
trace of its filesystem, logging and network calls, in source order.
The two environment-dependent facts — whether the destination folder
already exists, and whether the poster fetch or the poster file write
raises — are oracle parameters.  The Python code has no exception
handler, so a raising fetch or write propagates out of the function
before the final chdir; `raised` records that exit mode. -/

/-- A metadata record as consumed by `perform_rename`: the Title and
Year fields, and the Poster field when present. -/
structure Entry where
  title : Str
  year : Str
  poster : Option Str
deriving DecidableEq

/-- One observable call made by `perform_rename`. -/
inductive Ev where
  | logError (msg : Str)
  | warn (msg : Str)
  | mkdir (dir : Str)
  | move (src dst : Str)
  | chdir (dir : Str)
  | fetch (url : Str)
  | write (name : Str)
deriving DecidableEq

/-- Oracle for the poster fetch and write: both succeed, the network
get raises, or opening/writing the poster file raises. -/
inductive FetchOutcome where
  | ok
  | fetchRaises
  | writeRaises
deriving DecidableEq

/-- Result of one `perform_rename` run: the calls it made, and whether
it exited by an uncaught exception instead of returning. -/
structure RunResult where
  events : List Ev
  raised : Bool
deriving DecidableEq

/-- Line 99 of movie_renamer.py: the destination folder name built from
the Title and Year fields and passed through `_clean`. -/
def destDir (title year : Str) : Str :=
  _clean (title ++ str (r" (") ++ year ++ str (r")"))

/-- Line 104 of movie_renamer.py: the destination path of the moved
file, `os.path.join` modelled with a forward slash. -/
def destName (filename : Str) (e : Entry) : Str :=
  destDir e.title e.year ++ str (r"/") ++
    _clean (e.title ++ str (r".") ++ (rpartition '.' filename).2)

/-- `perform_rename` of movie_renamer.py as an event trace.
`dirExists` is the oracle for the `os.path.exists(new_dir)` test and
`po` the oracle for the poster fetch/write.  The branch structure
follows the source: conflict check and early return; mkdir, move,
chdir into the new folder; then the poster cases (absent, the sentinel,
or a fetch and write that may raise); finally chdir back up — which is
skipped when the fetch or write raises, since nothing catches the
exception. -/
def perform_rename (dirExists : Bool) (po : FetchOutcome)
    (filename : Str) (e : Entry) : RunResult :=
  let new_dir := destDir e.title e.year
  if dirExists then
    { events := [.logError (new_dir ++ str (r" already exists."))], raised := false }
  else
    let new_name := destName filename e
    let pre : List Ev := [.mkdir new_dir, .move filename new_name, .chdir new_dir]
    match e.poster with
    | none => { events := pre ++ [.chdir (str (r".."))], raised := false }
    | some p =>
      if p = str (r"N/A") then
        { events := pre ++ [.warn (str (r"No poster available for ") ++ new_name),
            .chdir (str (r".."))], raised := false }
      else
        let poster_name := str (r"folder.") ++ (rpartition '.' p).2
        match po with
        | .ok => { events := pre ++ [.fetch p, .write poster_name,
            .chdir (str (r".."))], raised := false }
        | .fetchRaises => { events := pre ++ [.fetch p], raised := true }
        | .writeRaises => { events := pre ++ [.fetch p], raised := true }

/-- The working directory reached by replaying the chdir calls of a
trace, as a stack of directory components relative to the directory on
entry: a chdir to the parent pops, any other chdir pushes. -/
def cwdAfter (evs : List Ev) : List Str :=
  evs.foldl
    (fun cwd e =>
      match e with
      | .chdir d => if d = str (r"..") then cwd.dropLast else cwd ++ [d]
      | _ => cwd)
    []

/-- Recognizer for warning events. -/
def isWarn : Ev → Bool
  | .warn _ => true
  | _ => false

/-- Recognizer for directory-creation events. -/
def isMkdir : Ev → Bool
  | .mkdir _ => true
  | _ => false

/-- Recognizer for file-move events. -/
def isMove : Ev → Bool
  | .move _ _ => true
  | _ => false

/-- Recognizer for network-fetch events. -/
def isFetch : Ev → Bool
  | .fetch _ => true
  | _ => false

/-! ## Lemmas about the cleaner -/

theorem mem_replaceChar {x c d : Char} {l : Str} (h : x ∈ replaceChar c d l) :
    x = d ∨ (x ∈ l ∧ x ≠ c) := by
  rcases List.mem_map.mp h with ⟨a, ha, hax⟩
  by_cases hac : a = c
  · left
    simpa [hac] using hax.symm
  · right
    simp only [if_neg hac] at hax
    exact ⟨hax ▸ ha, hax ▸ hac⟩

theorem mem_replaceChar_of_ne {x c d : Char} {l : Str} (hx : x ∈ l) (hne : x ≠ c) :
    x ∈ replaceChar c d l :=
  List.mem_map.mpr ⟨x, hx, by simp [hne]⟩

theorem replaceChar_eq_self {c d : Char} {l : Str} (h : ∀ y ∈ l, y ≠ c) :
    replaceChar c d l = l := by
  have : l.map (fun x => if x = c then d else x) = l.map id := by
    apply List.map_congr_left
    intro a ha
    simp [h a ha]
  simpa [replaceChar] using this

theorem mem_foldReplace :
    ∀ (cs : List Char) (l : Str), ' ' ∉ cs →
      ∀ x ∈ List.foldl (fun acc c => replaceChar c ' ' acc) l cs,
        x ∉ cs ∧ (x ∈ l ∨ x = ' ')
  | [], l, _, x, hx => by simpa using Or.inl hx
  | c :: cs, l, hsp, x, hx => by
    have hsp' : ' ' ∉ cs := fun h => hsp (List.mem_cons_of_mem _ h)
    have hspc : c ≠ ' ' := fun h => hsp (h ▸ List.mem_cons_self c cs)
    have hspc' : ' ' ≠ c := fun hc => hspc hc.symm
    have step := mem_foldReplace cs (replaceChar c ' ' l) hsp' x (by simpa using hx)
    rcases step with ⟨hncs, hmem | hx'⟩
    · rcases mem_replaceChar hmem with h | ⟨hl, hne⟩
      · subst h
        exact ⟨by simp [hncs, hspc'], Or.inr rfl⟩
      · exact ⟨by simp [hncs, hne], Or.inl hl⟩
    · subst hx'
      exact ⟨by simp [hncs, hspc'], Or.inr rfl⟩

theorem foldReplace_eq_self :
    ∀ (cs : List Char) (l : Str), (∀ x ∈ l, x ∉ cs) →
      List.foldl (fun acc c => replaceChar c ' ' acc) l cs = l
  | [], l, _ => rfl
  | c :: cs, l, h => by
    have hfix : replaceChar c ' ' l = l :=
      replaceChar_eq_self fun y hy hyc => h y hy (hyc ▸ List.mem_cons_self c cs)
    have h' : ∀ x ∈ l, x ∉ cs := fun x hx hxcs => h x hx (List.mem_cons_of_mem _ hxcs)
    calc List.foldl (fun acc x => replaceChar x ' ' acc) l (c :: cs)
        = List.foldl (fun acc x => replaceChar x ' ' acc) (replaceChar c ' ' l) cs := rfl
      _ = List.foldl (fun acc x => replaceChar x ' ' acc) l cs := by rw [hfix]
      _ = l := foldReplace_eq_self cs l h'

theorem mem_foldReplace_of_notMem :
    ∀ (cs : List Char) (l : Str) (x : Char), x ∈ l → x ∉ cs →
      x ∈ List.foldl (fun acc c => replaceChar c ' ' acc) l cs
  | [], l, x, hx, _ => hx
  | c :: cs, l, x, hx, hncs => by
    have hxc : x ≠ c := fun h => hncs (h ▸ List.mem_cons_self c cs)
    have hncs' : x ∉ cs := fun h => hncs (List.mem_cons_of_mem _ h)
    exact mem_foldReplace_of_notMem cs (replaceChar c ' ' l) x
      (mem_replaceChar_of_ne hx hxc) hncs'

theorem mem_replacePairOnce : ∀ (l : Str) (x : Char), x ∈ replacePairOnce l → x ∈ l
  | [], x => by simp [replacePairOnce]
  | [c], x => by simp [replacePairOnce]
  | a :: b :: rest, x => by
    simp only [replacePairOnce]
    split
    · next hcond =>
      rw [Bool.and_eq_true, beq_iff_eq, beq_iff_eq] at hcond
      intro hx
      rcases List.mem_cons.mp hx with h | h
      · subst h
        exact hcond.1 ▸ List.mem_cons_self a _
      · exact List.mem_cons_of_mem _
          (List.mem_cons_of_mem _ (mem_replacePairOnce rest x h))
    · intro hx
      rcases List.mem_cons.mp hx with h | h
      · exact h ▸ List.mem_cons_self a _
      · exact List.mem_cons_of_mem _ (mem_replacePairOnce (b :: rest) x h)

theorem mem_replacePairOnce_of_ne :
    ∀ (l : Str) (x : Char), x ∈ l → x ≠ ' ' → x ∈ replacePairOnce l
  | [], x, hx, _ => by simp at hx
  | [c], x, hx, _ => by simpa [replacePairOnce] using hx
  | a :: b :: rest, x, hx, hne => by
    simp only [replacePairOnce]
    split
    · next hcond =>
      rw [Bool.and_eq_true, beq_iff_eq, beq_iff_eq] at hcond
      have ha : a = ' ' := hcond.1
      have hb : b = ' ' := hcond.2
      have hrest : x ∈ rest := by
        rcases List.mem_cons.mp hx with h | h
        · exact absurd (h.trans ha) hne
        · rcases List.mem_cons.mp h with h' | h'
          · exact absurd (h'.trans hb) hne
          · exact h'
      exact List.mem_cons_of_mem _ (mem_replacePairOnce_of_ne rest x hrest hne)
    · rcases List.mem_cons.mp hx with h | h
      · exact h ▸ List.mem_cons_self _ _
      · exact List.mem_cons_of_mem _ (mem_replacePairOnce_of_ne (b :: rest) x h hne)

theorem collapseSpaces_eq_self {l : Str} (h : hasDoubleSpace l = false) :
    collapseSpaces l = l := by
  rw [collapseSpaces_step]
  simp [h]

theorem hasDoubleSpace_collapseSpaces (l : Str) :
    hasDoubleSpace (collapseSpaces l) = false := by
  rw [collapseSpaces_step]
  split
  · exact hasDoubleSpace_collapseSpaces (replacePairOnce l)
  · next h => simpa using h
termination_by l.length
decreasing_by exact replacePairOnce_length_lt l (by assumption)

theorem mem_collapseSpaces (l : Str) (x : Char) (hx : x ∈ collapseSpaces l) : x ∈ l := by
  rw [collapseSpaces_step] at hx
  split at hx
  · exact mem_replacePairOnce l x (mem_collapseSpaces (replacePairOnce l) x hx)
  · exact hx
termination_by l.length
decreasing_by exact replacePairOnce_length_lt l (by assumption)

theorem mem_collapseSpaces_of_ne (l : Str) (x : Char) (hx : x ∈ l) (hne : x ≠ ' ') :
    x ∈ collapseSpaces l := by
  rw [collapseSpaces_step]
  split
  · exact mem_collapseSpaces_of_ne (replacePairOnce l) x
      (mem_replacePairOnce_of_ne l x hx hne) hne
  · exact hx
termination_by l.length
decreasing_by exact replacePairOnce_length_lt l (by assumption)

theorem mem_clean_not_forbidden {l : Str} {x : Char} (h : x ∈ _clean l) :
    x ∉ forbidden_characters := by
  have h1 : x ∈ replaceForbidden l := mem_collapseSpaces _ x h
  exact (mem_foldReplace forbidden_characters l (by decide) x h1).1

theorem hasDoubleSpace_clean (l : Str) : hasDoubleSpace (_clean l) = false :=
  hasDoubleSpace_collapseSpaces _

theorem replaceForbidden_eq_self {l : Str} (h : ∀ x ∈ l, x ∉ forbidden_characters) :
    replaceForbidden l = l :=
  foldReplace_eq_self forbidden_characters l h

theorem mem_clean_of_ne (l : Str) (x : Char) (hx : x ∈ l) (hsp : x ≠ ' ')
    (hforb : x ∉ forbidden_characters) : x ∈ _clean l :=
  mem_collapseSpaces_of_ne _ x (mem_foldReplace_of_notMem _ l x hx hforb) hsp

/-! ## Lemmas about rpartition -/

theorem rpartition_of_not_mem {c : Char} : ∀ {l : Str}, c ∉ l → rpartition c l = ([], l)
  | [], _ => rfl
  | x :: xs, h => by
    have hxs : c ∉ xs := fun hm => h (List.mem_cons_of_mem _ hm)
    have hxc : x ≠ c := fun he => h (he ▸ List.mem_cons_self x xs)
    simp [rpartition, hxs, hxc]

theorem rpartition_append {c : Char} : ∀ (a : Str) {b : Str}, c ∉ b →
    rpartition c (a ++ c :: b) = (a, b)
  | [], b, hb => by simp [rpartition, hb]
  | x :: a, b, hb => by
    have hmem : c ∈ a ++ c :: b := List.mem_append_right _ (List.mem_cons_self c b)
    have ih := rpartition_append a hb
    simp only [List.cons_append, rpartition]
    simp [hmem, ih]

/-! ## Claims about the Search Constructor and the cleaner -/

/-- C6: for every filename, the search string built by
`construct_search` contains no dot; and on a filename of the form
`a ++ dot ++ b` with a dot-free extension `b`, it is exactly `a` (the
name with the trailing extension removed) with each remaining dot
replaced by a space, and nothing else is changed. -/
theorem construct_search_spec (f a b : Str) (hb : '.' ∉ b) :
    '.' ∉ construct_search f ∧
      construct_search (a ++ '.' :: b) = replaceChar '.' ' ' a := by
  constructor
  · intro hdot
    rcases mem_replaceChar hdot with h | ⟨_, hne⟩
    · exact absurd h (by decide)
    · exact hne rfl
  · simp [construct_search, rpartition_append a hb]

theorem construct_search_spec_witness :
    ('.' ∉ str (r"mkv")) ∧
      ('.' ∉ construct_search (str (r"x.y")) ∧
        construct_search (str (r"The.Matrix.1999") ++ '.' :: str (r"mkv")) =
          replaceChar '.' ' ' (str (r"The.Matrix.1999"))) :=
  ⟨by decide,
    construct_search_spec (str (r"x.y")) (str (r"The.Matrix.1999")) (str (r"mkv"))
      (by decide)⟩

/-- C10: a filename containing no dot at all yields the empty search
string — the whole name is discarded, because Python rpartition leaves
the text before a missing separator empty. -/
theorem construct_search_dotless (f : Str) (h : '.' ∉ f) : construct_search f = [] := by
  simp [construct_search, rpartition_of_not_mem h, replaceChar]

theorem construct_search_dotless_witness :
    ('.' ∉ str (r"movie")) ∧ construct_search (str (r"movie")) = [] :=
  ⟨by decide, construct_search_dotless (str (r"movie")) (by decide)⟩

/-- C5: the cleaned destination folder name built from any title and
year contains no forbidden character and no two adjacent spaces. -/
theorem destDir_clean (title year : Str) :
    (∀ c ∈ destDir title year, c ∉ forbidden_characters) ∧
      hasDoubleSpace (destDir title year) = false :=
  ⟨fun _ hc => mem_clean_not_forbidden hc, hasDoubleSpace_clean _⟩

theorem destDir_clean_witness :
    (' ' ∈ destDir (str (r"A<B")) (str (r"1999"))) ∧
      (' ' ∉ forbidden_characters ∧
        hasDoubleSpace (destDir (str (r"A<B")) (str (r"1999"))) = false) :=
  ⟨by decide,
    (destDir_clean (str (r"A<B")) (str (r"1999"))).1 ' ' (by decide),
    (destDir_clean (str (r"A<B")) (str (r"1999"))).2⟩

/-- C9: `_clean` is idempotent — a cleaned string has no forbidden
character left for the replacement loop and no space pair left for the
collapsing loop. -/
theorem clean_idempotent (s : Str) : _clean (_clean s) = _clean s := by
  have h1 : replaceForbidden (_clean s) = _clean s :=
    replaceForbidden_eq_self fun x hx => mem_clean_not_forbidden hx
  have h2 : hasDoubleSpace (_clean s) = false := hasDoubleSpace_clean s
  show collapseSpaces (replaceForbidden (_clean s)) = _clean s
  rw [h1, collapseSpaces_eq_self h2]

/-! ## Claims about the disambiguation loop -/

theorem pyIndex_eq_none {α : Type} (l : List α) (i : Int)
    (h : (l.length : Int) ≤ i ∨ i < -(l.length : Int)) : pyIndex l i = none := by
  unfold pyIndex
  rcases h with h | h
  · have h0 : 0 ≤ i := le_trans (Int.natCast_nonneg _) h
    rw [if_pos h0]
    apply List.getElem?_eq_none
    omega
  · have h0 : ¬ 0 ≤ i := by omega
    have h1 : ¬ 0 ≤ (l.length : Int) + i := by omega
    rw [if_neg h0, if_neg h1]

/-- C1 (amended): an operator input parsing as an integer `n` with
`n` above the candidate count or at most its negation — the inputs on
which Python indexing at `n - 1` raises IndexError — is treated as a
brand-new search string with the page reset to 1.  (Inputs parsing to
0 skip the file instead, and inputs in the remaining negative range
confirm a candidate counted from the end of the list.) -/
theorem handleChoice_out_of_range {α : Type} (search : Str) (page : Int)
    (cands : List α) (choice : Str) (n : Int)
    (hp : pyParseInt choice = some n) (h0 : n ≠ 0)
    (hout : (cands.length : Int) < n ∨ n ≤ -(cands.length : Int)) :
    handleChoice search page cands choice = .newSearch choice 1 := by
  by_cases hc : choice = ['n']
  · have hn : pyParseInt ['n'] = none := by decide
    rw [hc, hn] at hp
    exact Option.noConfusion hp
  · have hidx : pyIndex cands (n - 1) = none := by
      apply pyIndex_eq_none
      omega
    rw [handleChoice, if_neg hc, hp]
    simp only [if_neg h0, hidx]

theorem handleChoice_out_of_range_witness :
    pyParseInt (str (r"7")) = some 7 ∧ (7 : Int) ≠ 0 ∧
      ((([10, 20] : List Nat).length : Int) < 7 ∨
        (7 : Int) ≤ -((([10, 20] : List Nat).length : Int))) ∧
      handleChoice (str (r"s")) 1 ([10, 20] : List Nat) (str (r"7")) =
        .newSearch (str (r"7")) 1 :=
  ⟨by decide, by decide, by decide,
    handleChoice_out_of_range (str (r"s")) 1 [10, 20] (str (r"7")) 7
      (by decide) (by decide) (by decide)⟩

/-- C1 fails as stated: with two candidates, the input parsing to the
integer -1 lies outside the range 1..2, yet it is not treated as a new
search string — Python indexing at position -2 confirms the first
candidate.  (Also, the input 0 skips rather than re-searching.) -/
theorem handleChoice_out_of_range_counterexample :
    pyParseInt (str (r"-1")) = some (-1) ∧
      ¬ (1 ≤ (-1 : Int) ∧ (-1 : Int) ≤ (([10, 20] : List Nat).length : Int)) ∧
      handleChoice (str (r"s")) 1 ([10, 20] : List Nat) (str (r"-1")) = .confirm 10 ∧
      handleChoice (str (r"s")) 1 ([10, 20] : List Nat) (str (r"-1")) ≠
        .newSearch (str (r"-1")) 1 ∧
      handleChoice (str (r"s")) 1 ([10, 20] : List Nat) (str (r"0")) = .skip := by
  decide

/-- C2 (amended): after a lookup error, an empty operator reply skips
the file; a non-empty revised search string re-enters the query step
with the page number kept at its current value (it is not reset
to 1). -/
theorem error_loop_empty_or_requery (page : Int) (reply : Str) :
    (reply = [] → error_loop_step page reply = .skip) ∧
      (reply ≠ [] → error_loop_step page reply = .requery reply page) := by
  constructor
  · intro h
    simp [error_loop_step, h]
  · intro h
    simp [error_loop_step, h]

theorem error_loop_empty_or_requery_witness :
    error_loop_step 7 [] = .skip ∧
      error_loop_step 7 (str (r"x")) = .requery (str (r"x")) 7 :=
  ⟨(error_loop_empty_or_requery 7 []).1 rfl,
    (error_loop_empty_or_requery 7 (str (r"x"))).2 (by decide)⟩

/-- C2 fails as stated on the page number: a non-empty revised search
string entered while the loop is on page 2 is re-queried with page 2,
not with page 1. -/
theorem error_loop_counterexample :
    error_loop_step 2 (str (r"x")) = .requery (str (r"x")) 2 ∧
      error_loop_step 2 (str (r"x")) ≠ .requery (str (r"x")) 1 := by
  decide

/-! ## Claims about the Rename/Fetch Executor -/

/-- Concrete entry used for counterexamples and witnesses. -/
def exEntry : Entry :=
  { title := str (r"The Matrix"), year := str (r"1999"),
    poster := some (str (r"http://x/p.jpg")) }

/-- An entry whose poster reference is the sentinel. -/
def naEntry (title year : Str) : Entry :=
  { title := title, year := year, poster := some (str (r"N/A")) }

theorem destDir_ne_parent (title year : Str) : destDir title year ≠ str (r"..") := by
  intro h
  have hmem : '(' ∈ destDir title year := by
    apply mem_clean_of_ne
    · exact List.mem_append_left _
        (List.mem_append_left _ (List.mem_append_right _ (by decide)))
    · decide
    · decide
  rw [h] at hmem
  exact absurd hmem (by decide)

/-- C7: when the destination folder already exists, `perform_rename`
only reports the conflict — the trace is exactly one logError, the
function returns normally, and no directory is created and no file is
moved. -/
theorem perform_rename_conflict (po : FetchOutcome) (filename : Str) (e : Entry) :
    (perform_rename true po filename e).events =
        [Ev.logError (destDir e.title e.year ++ str (r" already exists."))] ∧
      (perform_rename true po filename e).raised = false ∧
      (perform_rename true po filename e).events.all
        (fun ev => !isMkdir ev && !isMove ev) = true := by
  refine ⟨rfl, rfl, ?_⟩
  simp [perform_rename, isMkdir, isMove]

/-- C8: when the poster field is the sentinel, the rename completes
(folder created, file moved, normal return), the no-artwork warning is
reported, and no network fetch appears in the trace. -/
theorem perform_rename_na_poster (po : FetchOutcome) (filename title year : Str) :
    (perform_rename false po filename (naEntry title year)).raised = false ∧
      Ev.mkdir (destDir title year) ∈
        (perform_rename false po filename (naEntry title year)).events ∧
      Ev.move filename (destName filename (naEntry title year)) ∈
        (perform_rename false po filename (naEntry title year)).events ∧
      Ev.warn (str (r"No poster available for ") ++
          destName filename (naEntry title year)) ∈
        (perform_rename false po filename (naEntry title year)).events ∧
      (perform_rename false po filename (naEntry title year)).events.all
        (fun ev => !isFetch ev) = true := by
  simp [perform_rename, naEntry, isFetch]

/-- C3 (amended): when the poster is present and not the sentinel and
the fetch or the write raises, the exception propagates out of
`perform_rename` (the workflow does not continue) and no warning is
reported; the already-performed folder creation and file move are not
undone — both remain in the trace, which contains no compensating
action. -/
theorem perform_rename_poster_failure (filename : Str) (e : Entry) (p : Str)
    (po : FetchOutcome) (hp : e.poster = some p) (hna : p ≠ str (r"N/A"))
    (hpo : po ≠ .ok) :
    (perform_rename false po filename e).raised = true ∧
      (perform_rename false po filename e).events.all (fun ev => !isWarn ev) = true ∧
      Ev.mkdir (destDir e.title e.year) ∈ (perform_rename false po filename e).events ∧
      Ev.move filename (destName filename e) ∈
        (perform_rename false po filename e).events := by
  cases po with
  | ok => exact absurd rfl hpo
  | fetchRaises => simp [perform_rename, hp, hna, isWarn]
  | writeRaises => simp [perform_rename, hp, hna, isWarn]

theorem perform_rename_poster_failure_witness :
    exEntry.poster = some (str (r"http://x/p.jpg")) ∧
      str (r"http://x/p.jpg") ≠ str (r"N/A") ∧
      FetchOutcome.writeRaises ≠ FetchOutcome.ok ∧
      ((perform_rename false .writeRaises (str (r"g.avi")) exEntry).raised = true ∧
        (perform_rename false .writeRaises (str (r"g.avi")) exEntry).events.all
          (fun ev => !isWarn ev) = true ∧
        Ev.mkdir (destDir exEntry.title exEntry.year) ∈
          (perform_rename false .writeRaises (str (r"g.avi")) exEntry).events ∧
        Ev.move (str (r"g.avi")) (destName (str (r"g.avi")) exEntry) ∈
          (perform_rename false .writeRaises (str (r"g.avi")) exEntry).events) :=
  ⟨rfl, by decide, by decide,
    perform_rename_poster_failure (str (r"g.avi")) exEntry (str (r"http://x/p.jpg"))
      .writeRaises rfl (by decide) (by decide)⟩

/-- C3 fails as stated: on a concrete entry with a real poster URL, a
raising fetch leaves the function by an exception (the workflow does
not continue) and the trace holds no warning event — yet the folder
creation and file move did happen. -/
theorem perform_rename_poster_failure_counterexample :
    (perform_rename false .fetchRaises (str (r"f.mkv")) exEntry).raised = true ∧
      (perform_rename false .fetchRaises (str (r"f.mkv")) exEntry).events.all
        (fun ev => !isWarn ev) = true ∧
      Ev.mkdir (str (r"The Matrix (1999)")) ∈
        (perform_rename false .fetchRaises (str (r"f.mkv")) exEntry).events := by
  decide

/-- C4 (amended): replaying the chdir calls of any `perform_rename`
trace, the working directory is back at its entry value on every
normally-returning path (success, sentinel poster, absent poster, and
conflict abort), but on a raising poster fetch or write the function
exits with the working directory still at the destination folder. -/
theorem perform_rename_cwd (dirExists : Bool) (po : FetchOutcome)
    (filename : Str) (e : Entry) :
    ((perform_rename dirExists po filename e).raised = false →
        cwdAfter (perform_rename dirExists po filename e).events = []) ∧
      ((perform_rename dirExists po filename e).raised = true →
        cwdAfter (perform_rename dirExists po filename e).events =
          [destDir e.title e.year]) := by
  obtain ⟨t, y, pOpt⟩ := e
  have hne := destDir_ne_parent t y
  cases dirExists with
  | true => constructor <;> intro hr <;> simp_all [perform_rename, cwdAfter]
  | false =>
    cases pOpt with
    | none => constructor <;> intro hr <;> simp_all [perform_rename, cwdAfter]
    | some p =>
      by_cases hna : p = str (r"N/A")
      · constructor <;> intro hr <;> simp_all [perform_rename, cwdAfter]
      · cases po <;> constructor <;> intro hr <;>
          simp_all [perform_rename, cwdAfter]

theorem perform_rename_cwd_witness :
    cwdAfter (perform_rename false .ok (str (r"f.mkv")) exEntry).events = [] ∧
      cwdAfter (perform_rename false .fetchRaises (str (r"f.mkv")) exEntry).events =
        [destDir exEntry.title exEntry.year] :=
  ⟨(perform_rename_cwd false .ok (str (r"f.mkv")) exEntry).1 (by decide),
    (perform_rename_cwd false .fetchRaises (str (r"f.mkv")) exEntry).2 (by decide)⟩

/-- C4 fails as stated: on the raising-fetch path the working
directory is not restored — the trace ends inside the destination
folder. -/
theorem perform_rename_cwd_counterexample :
    cwdAfter (perform_rename false .fetchRaises (str (r"f.mkv")) exEntry).events ≠
      [] := by
  decide
